import Mathlib

/-!
Shallow embedding of the draw-engine SVG editor (src/websvg/app.js):
data model (shapes, connectors, selection tags, drag descriptors),
geometry kernel (snap, shapeCenter, anchorPoint), the pointer-driven
interaction steps (onDown create branch, onMove, onUp) and the marquee
selection commit, together with theorems settling the specification
claims about them.

Modelling conventions: JavaScript numbers are modelled as real numbers;
the JS value Infinity used in the rectangle anchor computation is
modelled as the top element of WithTop Real; Math.round(x) is modelled
as the integer floor of x + 1/2 (the ECMAScript round-half-up rule);
JS object fields that may be absent are modelled as Option.
-/

noncomputable section
open scoped Classical

namespace DrawEngine

/-- A 2-D point in document space. -/
@[ext]
structure Pt where
  x : ℝ
  y : ℝ

/-- The shape kinds of the data model (the `type` field of a shape). -/
inductive ShapeType where
  | rect
  | ellipse
  | symbol
deriving DecidableEq

/-- A shape record: `{id,type,x,y,w,h,fill,outline,width,text,symbol}`.
The `symbol` field is an `Option` since loaded documents may omit it. -/
structure Shape where
  id : ℕ
  type : ShapeType
  symbol : Option String
  x : ℝ
  y : ℝ
  w : ℝ
  h : ℝ
  fill : String
  outline : String
  width : ℕ
  text : String

/-- A connector record: `{id,src,dst,arrow,stroke,width}`. -/
structure Connector where
  id : ℕ
  src : ℕ
  dst : ℕ
  arrow : String
  stroke : String
  width : ℕ
deriving DecidableEq

/-- A selection tag: the JS strings `s:<id>` and `c:<id>`. -/
inductive Tag where
  | shape (id : ℕ)
  | conn (id : ℕ)
deriving DecidableEq

/-- The active tool. -/
inductive Tool where
  | select
  | rect
  | ellipse
  | symbol
  | connector
  | text
deriving DecidableEq

/-- The original-geometry snapshot `{x,y,w,h}` captured by a resize drag. -/
structure Bounds where
  x : ℝ
  y : ℝ
  w : ℝ
  h : ℝ

/-- A resize handle compass code, recorded through the four letter tests
the source performs on it (`pos.includes` of each letter). -/
structure HandlePos where
  w : Bool
  e : Bool
  n : Bool
  s : Bool

/-- The drag descriptor, tagged by gesture kind (the DOM preview line of
a connect drag is not part of the model). -/
inductive Drag where
  | create (sid : ℕ) (start : Pt)
  | move (sids : List ℕ) (start : Pt)
  | resize (sid : ℕ) (pos : HandlePos) (start : Pt) (orig : Bounds)
  | connect (src : ℕ)
  | marquee (start : Pt)

/-- The editor state (`state` in the source). -/
structure EState where
  tool : Tool
  symbol : String
  nextId : ℕ
  shapes : List Shape
  connectors : List Connector
  selection : List Tag
  drag : Option Drag

/-- The fixed grid unit, `gridSize = 20`. -/
def gridSize : ℝ := 20

/-- ECMAScript `Math.round`: round half up, i.e. the floor of `x + 1/2`. -/
def jsRound (x : ℝ) : ℤ := ⌊x + 1/2⌋

/-- Grid snapping: `snap(v) = Math.round(v / gridSize) * gridSize`. -/
def snap (v : ℝ) : ℝ := ((jsRound (v / gridSize) : ℤ) : ℝ) * gridSize

/-- Shape center: the point at x plus half the width and y plus half
the height. -/
def shapeCenter (s : Shape) : Pt := ⟨s.x + s.w/2, s.y + s.h/2⟩

/-- The ray direction component `dx = toward.x - c.x` of `anchorPoint`. -/
def dxOf (s : Shape) (toward : Pt) : ℝ := toward.x - (shapeCenter s).x

/-- The ray direction component `dy = toward.y - c.y` of `anchorPoint`. -/
def dyOf (s : Shape) (toward : Pt) : ℝ := toward.y - (shapeCenter s).y

/-- The ellipse branch denominator `(dx*dx)/(a*a) + (dy*dy)/(b*b)` with
`a = s.w/2`, `b = s.h/2`. -/
def ellipseDenom (s : Shape) (toward : Pt) : ℝ :=
  dxOf s toward * dxOf s toward / ((s.w/2) * (s.w/2)) +
    dyOf s toward * dyOf s toward / ((s.h/2) * (s.h/2))

/-- Anchor projection `anchorPoint(s, toward)`: where the ray from the shape center toward
`toward` exits the shape silhouette.  The rectangle/symbol branch models
the JS ternaries `dx === 0 ? Infinity : rx/Math.abs(dx)` with
`WithTop ℝ` and `Math.min` with the `WithTop` minimum. -/
def anchorPoint (s : Shape) (toward : Pt) : Pt :=
  let c := shapeCenter s
  let dx := dxOf s toward
  let dy := dyOf s toward
  if dx = 0 ∧ dy = 0 then c
  else
    match s.type with
    | ShapeType.rect | ShapeType.symbol =>
        let tx : WithTop ℝ := if dx = 0 then ⊤ else (((s.w/2) / |dx| : ℝ) : WithTop ℝ)
        let ty : WithTop ℝ := if dy = 0 then ⊤ else (((s.h/2) / |dy| : ℝ) : WithTop ℝ)
        let t : ℝ := (min tx ty).untop' 0
        ⟨c.x + dx * t, c.y + dy * t⟩
    | ShapeType.ellipse =>
        if ellipseDenom s toward ≤ 0 then c
        else
          let t : ℝ := 1 / Real.sqrt (ellipseDenom s toward)
          ⟨c.x + dx * t, c.y + dy * t⟩

/-- The id allocator `newId()` reads the current `nextId` and post-increments it:
given the counter value it returns the allocated id and the new
counter. -/
def newId (n : ℕ) : ℕ × ℕ := (n, n + 1)

/-- The shape literal built by the pointer-down create branch.  Note the
source sets `symbol: symbolKindSelect.value` unconditionally, for every
tool; the `_` arm of the `type` match stands for the `rect` tool (the
call site only runs for the rect/ellipse/symbol tools). -/
def mkShape (tool : Tool) (symbolSel : String) (idv : ℕ) (p : Pt)
    (fill stroke : String) (width : ℕ) : Shape :=
  { id := idv,
    type := match tool with
      | Tool.symbol => ShapeType.symbol
      | Tool.ellipse => ShapeType.ellipse
      | _ => ShapeType.rect,
    symbol := some symbolSel,
    x := snap p.x, y := snap p.y, w := 1, h := 1,
    fill := fill, outline := stroke, width := width, text := "" }

/-- The pointer-down branch for the shape-drawing tools: push a new
snapped 1 by 1 shape, select it exclusively, begin a create drag at the
raw pointer position. -/
def onDownCreate (st : EState) (p : Pt) (symbolSel fill stroke : String)
    (width : ℕ) : EState :=
  if st.tool = Tool.rect ∨ st.tool = Tool.ellipse ∨ st.tool = Tool.symbol then
    let alloc := newId st.nextId
    let s := mkShape st.tool symbolSel alloc.1 p fill stroke width
    { st with shapes := st.shapes ++ [s],
              selection := [Tag.shape s.id],
              drag := some (Drag.create s.id p),
              nextId := alloc.2 }
  else st

/-- Find-and-mutate: `state.shapes.find(s => s.id === sid)` followed by an in-place
mutation: update the first shape with the given id, leave the list
unchanged when none matches. -/
def updateFirst : List Shape → ℕ → (Shape → Shape) → List Shape
  | [], _, _ => []
  | s :: rest, sid, f => if s.id = sid then f s :: rest else s :: updateFirst rest sid f

/-- The create-drag geometry update of `onMove`: corners are the raw
drag start and the snapped pointer, width/height clamped to at least
1. -/
def createGeom (start cur : Pt) (s : Shape) : Shape :=
  let x1 := snap cur.x
  let y1 := snap cur.y
  { s with x := min start.x x1, y := min start.y y1,
           w := max 1 |x1 - start.x|, h := max 1 |y1 - start.y| }

/-- The move-drag geometry update of `onMove`: translate by the raw
delta, then snap each coordinate. -/
def moveGeom (dx dy : ℝ) (s : Shape) : Shape :=
  { s with x := snap (s.x + dx), y := snap (s.y + dy) }

/-- The resize-drag geometry update of `onMove`: each compass letter
adjusts one edge pair from the original snapshot and the snapped
pointer, sequentially (`e` overrides `w`, `s` overrides `n`), with
width/height clamped to at least 1. -/
def resizeGeom (orig : Bounds) (pos : HandlePos) (cur : Pt) (s : Shape) : Shape :=
  let x1 := snap cur.x
  let y1 := snap cur.y
  let a0 : ℝ × ℝ := (orig.x, orig.w)
  let a1 := if pos.w then (min x1 (orig.x + orig.w), |orig.x + orig.w - x1|) else a0
  let a2 := if pos.e then (min orig.x x1, |x1 - orig.x|) else a1
  let b0 : ℝ × ℝ := (orig.y, orig.h)
  let b1 := if pos.n then (min y1 (orig.y + orig.h), |orig.y + orig.h - y1|) else b0
  let b2 := if pos.s then (min orig.y y1, |y1 - orig.y|) else b1
  { s with x := a2.1, y := b2.1, w := max 1 a2.2, h := max 1 b2.2 }

/-- The pointer-move dispatcher: routes on the live drag descriptor.
The connect and marquee branches only update DOM previews, so they
leave the model state unchanged here. -/
def onMove (st : EState) (cur : Pt) : EState :=
  match st.drag with
  | none => st
  | some (Drag.create sid start) =>
      { st with shapes := updateFirst st.shapes sid (createGeom start cur) }
  | some (Drag.move sids start) =>
      let dx := cur.x - start.x
      let dy := cur.y - start.y
      { st with
        shapes := sids.foldl (fun sh sid => updateFirst sh sid (moveGeom dx dy)) st.shapes,
        drag := some (Drag.move sids cur) }
  | some (Drag.resize sid pos _ orig) =>
      { st with shapes := updateFirst st.shapes sid (resizeGeom orig pos cur) }
  | some (Drag.connect _) => st
  | some (Drag.marquee _) => st

/-- The marquee containment test for a shape:
`left <= s.x && right >= s.x+s.w && top <= s.y && bottom >= s.y+s.h`. -/
def shapeMarqueeTest (left right top bottom : ℝ) (s : Shape) : Prop :=
  left ≤ s.x ∧ s.x + s.w ≤ right ∧ top ≤ s.y ∧ s.y + s.h ≤ bottom

/-- The marquee containment test for a connector: resolve both shapes
(`False` when either is missing, mirroring the `continue`), compute
both anchor endpoints, and test the endpoint bounding box against the
marquee rectangle. -/
def connMarqueeTest (shapes : List Shape) (left right top bottom : ℝ)
    (c : Connector) : Prop :=
  match shapes.find? (fun s => s.id == c.src), shapes.find? (fun s => s.id == c.dst) with
  | some s1, some s2 =>
      let p1 := anchorPoint s1 (shapeCenter s2)
      let p2 := anchorPoint s2 (shapeCenter s1)
      left ≤ min p1.x p2.x ∧ max p1.x p2.x ≤ right ∧
        top ≤ min p1.y p2.y ∧ max p1.y p2.y ≤ bottom
  | _, _ => False

/-- A point lies within the axis-aligned rectangle with the given
sides, boundary inclusive. -/
def pointInRect (left right top bottom : ℝ) (p : Pt) : Prop :=
  left ≤ p.x ∧ p.x ≤ right ∧ top ≤ p.y ∧ p.y ≤ bottom

/-- The marquee commit: clear the selection unless additive, then scan
shapes and connectors in order, adding the tag of each item passing its
containment test. -/
def applyMarquee (st : EState) (x0 y0 x1 y1 : ℝ) (add : Bool) : EState :=
  let sel0 := if add then st.selection else []
  let left := min x0 x1
  let right := max x0 x1
  let top := min y0 y1
  let bottom := max y0 y1
  let sel1 := st.shapes.foldl
    (fun sel s =>
      if shapeMarqueeTest left right top bottom s then sel.insert (Tag.shape s.id) else sel)
    sel0
  let sel2 := st.connectors.foldl
    (fun sel c =>
      if connMarqueeTest st.shapes left right top bottom c then sel.insert (Tag.conn c.id) else sel)
    sel1
  { st with selection := sel2 }

/-- The pointer-up dispatcher.  `tag` is the result of `pickTag` on the
release target; `stroke`/`width` are the current default inputs.  A
connect drag commits a connector only onto a different shape; a marquee
drag commits the selection; every path ends by clearing the drag
descriptor (the connect preview line is DOM-only and vanishes with the
descriptor). -/
def onUp (st : EState) (cur : Pt) (tag : Option Tag) (addKey : Bool)
    (stroke : String) (width : ℕ) : EState :=
  match st.drag with
  | none => st
  | some (Drag.connect src) =>
      let st1 : EState :=
        match tag with
        | some (Tag.shape dst) =>
            if dst ≠ src then
              let alloc := newId st.nextId
              { st with
                connectors := st.connectors ++
                  [{ id := alloc.1, src := src, dst := dst, arrow := "last",
                     stroke := stroke, width := width }],
                nextId := alloc.2 }
            else st
        | _ => st
      { st1 with drag := none }
  | some (Drag.marquee start) =>
      { applyMarquee st start.x start.y cur.x cur.y addKey with drag := none }
  | some _ => { st with drag := none }

/-- The loader fallback for a missing `next_id`:
`Math.max(1, ...shapeIds, ...connectorIds) + 1`. -/
def deriveNextId (shapes : List Shape) (connectors : List Connector) : ℕ :=
  ((shapes.map Shape.id ++ connectors.map Connector.id).foldl max 1) + 1

/-- A coordinate is grid-aligned when it is an integer multiple of the
grid unit. -/
def Aligned (v : ℝ) : Prop := ∃ k : ℤ, v = gridSize * k

/-- All ids currently present across the shape and connector
collections. -/
def allIds (st : EState) : List ℕ :=
  st.shapes.map Shape.id ++ st.connectors.map Connector.id

/-- The id-allocation invariant: every existing id is below the counter
and the ids are pairwise distinct across both collections. -/
def IdsOk (st : EState) : Prop :=
  (∀ i ∈ allIds st, i < st.nextId) ∧ (allIds st).Nodup

/-- Concrete rectangle of the spec example: width 100, height 50,
centered at (50,25). -/
def rectExample : Shape :=
  { id := 1, type := ShapeType.rect, symbol := none, x := 0, y := 0,
    w := 100, h := 50, fill := "", outline := "", width := 2, text := "" }

/-- Concrete ellipse of the spec example: a = 50, b = 25, centered at
the origin. -/
def ellipseExample : Shape :=
  { id := 2, type := ShapeType.ellipse, symbol := none, x := -50, y := -25,
    w := 100, h := 50, fill := "", outline := "", width := 2, text := "" }

lemma ne_center_not_both_zero {s : Shape} {p : Pt} (h : p ≠ shapeCenter s) :
    ¬ (dxOf s p = 0 ∧ dyOf s p = 0) := by
  rintro ⟨hx, hy⟩
  apply h
  ext
  · have := sub_eq_zero.mp hx
    simpa [dxOf] using this
  · have := sub_eq_zero.mp hy
    simpa [dyOf] using this

/-- Claim C8: snap is idempotent (`snap(snap v) = snap v` for every real
`v`), rounds to the nearest multiple of the grid unit 20 in the
round-half-up sense, and in particular `snap 27 = 20` and
`snap 35 = 40`. -/
theorem snap_spec :
    (∀ v : ℝ, snap (snap v) = snap v) ∧ snap 27 = 20 ∧ snap 35 = 40 := by
  have hfloor_half : ⌊(1/2 : ℝ)⌋ = 0 := by
    rw [Int.floor_eq_zero_iff]
    constructor <;> norm_num
  refine ⟨?_, ?_, ?_⟩
  · intro v
    unfold snap jsRound gridSize
    have h20 : (20 : ℝ) ≠ 0 := by norm_num
    set k : ℤ := ⌊v / 20 + 1/2⌋ with hk
    have hdiv : ((k : ℝ) * 20) / 20 = (k : ℝ) := by field_simp
    rw [hdiv]
    have : ⌊(k : ℝ) + 1/2⌋ = k + ⌊(1/2 : ℝ)⌋ := Int.floor_int_add k (1/2 : ℝ)
    rw [this, hfloor_half, add_zero]
  · unfold snap jsRound gridSize
    have h1 : (27 : ℝ) / 20 + 1/2 = 37/20 := by norm_num
    rw [h1]
    have h2 : ⌊(37/20 : ℝ)⌋ = 1 := by
      rw [Int.floor_eq_iff]
      constructor <;> norm_num
    rw [h2]
    norm_num
  · unfold snap jsRound gridSize
    have h1 : (35 : ℝ) / 20 + 1/2 = 45/20 := by norm_num
    rw [h1]
    have h2 : ⌊(45/20 : ℝ)⌋ = 2 := by
      rw [Int.floor_eq_iff]
      constructor <;> norm_num
    rw [h2]
    norm_num

/-- Claim C1: for `Rect`/`Symbol` shapes and a target different from the
center, `anchorPoint` returns `center + (dx, dy) * t` with
`t = min(halfWidth/|dx|, halfHeight/|dy|)`, a zero direction component
contributing an infinite scale factor (so the other axis alone
constrains `t`); in particular for the 100 by 50 rectangle centered at
(50,25) and target (200,25) the result is (100,25). -/
theorem anchorPoint_rect_spec :
    (∀ (s : Shape) (p : Pt),
      (s.type = ShapeType.rect ∨ s.type = ShapeType.symbol) → p ≠ shapeCenter s →
      (dxOf s p ≠ 0 → dyOf s p ≠ 0 →
        anchorPoint s p =
          ⟨(shapeCenter s).x + dxOf s p * min ((s.w/2) / |dxOf s p|) ((s.h/2) / |dyOf s p|),
           (shapeCenter s).y + dyOf s p * min ((s.w/2) / |dxOf s p|) ((s.h/2) / |dyOf s p|)⟩) ∧
      (dxOf s p = 0 →
        anchorPoint s p =
          ⟨(shapeCenter s).x, (shapeCenter s).y + dyOf s p * ((s.h/2) / |dyOf s p|)⟩) ∧
      (dyOf s p = 0 →
        anchorPoint s p =
          ⟨(shapeCenter s).x + dxOf s p * ((s.w/2) / |dxOf s p|), (shapeCenter s).y⟩)) ∧
    anchorPoint rectExample ⟨200, 25⟩ = ⟨100, 25⟩ := by
  have main : ∀ (s : Shape) (p : Pt),
      (s.type = ShapeType.rect ∨ s.type = ShapeType.symbol) → p ≠ shapeCenter s →
      (dxOf s p ≠ 0 → dyOf s p ≠ 0 →
        anchorPoint s p =
          ⟨(shapeCenter s).x + dxOf s p * min ((s.w/2) / |dxOf s p|) ((s.h/2) / |dyOf s p|),
           (shapeCenter s).y + dyOf s p * min ((s.w/2) / |dxOf s p|) ((s.h/2) / |dyOf s p|)⟩) ∧
      (dxOf s p = 0 →
        anchorPoint s p =
          ⟨(shapeCenter s).x, (shapeCenter s).y + dyOf s p * ((s.h/2) / |dyOf s p|)⟩) ∧
      (dyOf s p = 0 →
        anchorPoint s p =
          ⟨(shapeCenter s).x + dxOf s p * ((s.w/2) / |dxOf s p|), (shapeCenter s).y⟩) := by
    intro s p hty hne
    have hnz : ¬ (dxOf s p = 0 ∧ dyOf s p = 0) := ne_center_not_both_zero hne
    refine ⟨?_, ?_, ?_⟩
    · intro hdx hdy
      rcases hty with h | h <;>
      · simp only [anchorPoint, if_neg hnz, h]
        rw [if_neg hdx, if_neg hdy, ← WithTop.coe_min, WithTop.untop'_coe]
    · intro hdx
      have hdy : dyOf s p ≠ 0 := fun hdy => hnz ⟨hdx, hdy⟩
      rcases hty with h | h <;>
      · simp only [anchorPoint, if_neg hnz, h]
        rw [if_pos hdx, if_neg hdy, min_top_left, WithTop.untop'_coe]
        simp [hdx]
    · intro hdy
      have hdx : dxOf s p ≠ 0 := fun hdx => hnz ⟨hdx, hdy⟩
      rcases hty with h | h <;>
      · simp only [anchorPoint, if_neg hnz, h]
        rw [if_neg hdx, if_pos hdy, min_top_right, WithTop.untop'_coe]
        simp [hdy]
  refine ⟨main, ?_⟩
  have hne : (⟨200, 25⟩ : Pt) ≠ shapeCenter rectExample := by
    simp only [shapeCenter, rectExample, ne_eq, Pt.mk.injEq, not_and]
    intro h
    norm_num at h
  have hdy : dyOf rectExample ⟨200, 25⟩ = 0 := by
    norm_num [dyOf, shapeCenter, rectExample]
  have h := (main rectExample ⟨200, 25⟩ (Or.inl rfl) hne).2.2 hdy
  rw [h]
  have habs : |dxOf rectExample ⟨200, 25⟩| = 150 := by
    norm_num [dxOf, shapeCenter, rectExample]
  rw [habs]
  norm_num [dxOf, shapeCenter, rectExample]

/-- Witness for C1: the rectangle example with target (200,100), where
both direction components are nonzero and both scale factors tie at
1/3, yields the corner (100,50). -/
theorem anchorPoint_rect_spec_w :
    anchorPoint rectExample ⟨200, 100⟩ = ⟨100, 50⟩ := by
  have hne : (⟨200, 100⟩ : Pt) ≠ shapeCenter rectExample := by
    simp only [shapeCenter, rectExample, ne_eq, Pt.mk.injEq, not_and]
    intro h
    norm_num at h
  have h := (anchorPoint_rect_spec.1 rectExample ⟨200, 100⟩ (Or.inl rfl) hne).1
    (by norm_num [dxOf, shapeCenter, rectExample])
    (by norm_num [dyOf, shapeCenter, rectExample])
  rw [h]
  have habsx : |dxOf rectExample ⟨200, 100⟩| = 150 := by
    norm_num [dxOf, shapeCenter, rectExample]
  have habsy : |dyOf rectExample ⟨200, 100⟩| = 75 := by
    norm_num [dyOf, shapeCenter, rectExample]
  rw [habsx, habsy]
  have hmin : min ((rectExample.w/2) / 150) ((rectExample.h/2) / 75) = 1/3 := by
    norm_num [rectExample, min_def]
  rw [hmin]
  norm_num [dxOf, dyOf, shapeCenter, rectExample]

/-- Claim C2: for `Ellipse` shapes and a target different from the
center, `anchorPoint` returns `center + (dx, dy) * t` with
`t = 1 / sqrt(dx^2/a^2 + dy^2/b^2)` when the denominator is positive,
and the center when the denominator is non-positive; in particular the
ellipse with a = 50, b = 25 centered at the origin and a target
directly above yields (0,25). -/
theorem anchorPoint_ellipse_spec :
    (∀ (s : Shape) (p : Pt), s.type = ShapeType.ellipse → p ≠ shapeCenter s →
      (0 < ellipseDenom s p →
        anchorPoint s p =
          ⟨(shapeCenter s).x + dxOf s p * (1 / Real.sqrt (ellipseDenom s p)),
           (shapeCenter s).y + dyOf s p * (1 / Real.sqrt (ellipseDenom s p))⟩) ∧
      (ellipseDenom s p ≤ 0 → anchorPoint s p = shapeCenter s)) ∧
    anchorPoint ellipseExample ⟨0, 100⟩ = ⟨0, 25⟩ := by
  have main : ∀ (s : Shape) (p : Pt), s.type = ShapeType.ellipse → p ≠ shapeCenter s →
      (0 < ellipseDenom s p →
        anchorPoint s p =
          ⟨(shapeCenter s).x + dxOf s p * (1 / Real.sqrt (ellipseDenom s p)),
           (shapeCenter s).y + dyOf s p * (1 / Real.sqrt (ellipseDenom s p))⟩) ∧
      (ellipseDenom s p ≤ 0 → anchorPoint s p = shapeCenter s) := by
    intro s p hty hne
    have hnz : ¬ (dxOf s p = 0 ∧ dyOf s p = 0) := ne_center_not_both_zero hne
    constructor
    · intro hpos
      simp only [anchorPoint, if_neg hnz, hty]
      rw [if_neg (not_le.mpr hpos)]
    · intro hle
      simp only [anchorPoint, if_neg hnz, hty]
      rw [if_pos hle]
  refine ⟨main, ?_⟩
  have hne : (⟨0, 100⟩ : Pt) ≠ shapeCenter ellipseExample := by
    simp only [shapeCenter, ellipseExample, ne_eq, Pt.mk.injEq, not_and]
    intro h
    norm_num
  have hd : ellipseDenom ellipseExample ⟨0, 100⟩ = 16 := by
    norm_num [ellipseDenom, dxOf, dyOf, shapeCenter, ellipseExample]
  have h := (main ellipseExample ⟨0, 100⟩ rfl hne).1 (by rw [hd]; norm_num)
  rw [h, hd]
  have hs : Real.sqrt 16 = 4 := by
    rw [show (16 : ℝ) = 4^2 by norm_num, Real.sqrt_sq (by norm_num : (0:ℝ) ≤ 4)]
  rw [hs]
  norm_num [dxOf, dyOf, shapeCenter, ellipseExample]

/-- Witness for C2: the ellipse example with target (0,50) has positive
denominator 4 and anchor (0,25). -/
theorem anchorPoint_ellipse_spec_w :
    0 < ellipseDenom ellipseExample ⟨0, 50⟩ ∧
    anchorPoint ellipseExample ⟨0, 50⟩ = ⟨0, 25⟩ := by
  have hd : ellipseDenom ellipseExample ⟨0, 50⟩ = 4 := by
    norm_num [ellipseDenom, dxOf, dyOf, shapeCenter, ellipseExample]
  have hne : (⟨0, 50⟩ : Pt) ≠ shapeCenter ellipseExample := by
    simp only [shapeCenter, ellipseExample, ne_eq, Pt.mk.injEq, not_and]
    intro h
    norm_num
  refine ⟨by rw [hd]; norm_num, ?_⟩
  have h := (anchorPoint_ellipse_spec.1 ellipseExample ⟨0, 50⟩ rfl hne).1
    (by rw [hd]; norm_num)
  rw [h, hd]
  have hs : Real.sqrt 4 = 2 := by
    rw [show (4 : ℝ) = 2^2 by norm_num, Real.sqrt_sq (by norm_num : (0:ℝ) ≤ 2)]
  rw [hs]
  norm_num [dxOf, dyOf, shapeCenter, ellipseExample]

/-- Claim C3: `anchorPoint` is total; for every shape of any kind it
maps the center of the shape to itself exactly, and for an ellipse a
non-positive denominator also resolves to the center (never an
exception or a division by zero). -/
theorem anchorPoint_total :
    (∀ s : Shape, anchorPoint s (shapeCenter s) = shapeCenter s) ∧
    (∀ (s : Shape) (p : Pt), s.type = ShapeType.ellipse → ellipseDenom s p ≤ 0 →
      anchorPoint s p = shapeCenter s) := by
  constructor
  · intro s
    have hx : dxOf s (shapeCenter s) = 0 := by simp [dxOf]
    have hy : dyOf s (shapeCenter s) = 0 := by simp [dyOf]
    simp only [anchorPoint]
    rw [if_pos ⟨hx, hy⟩]
  · intro s p hty hle
    by_cases hz : dxOf s p = 0 ∧ dyOf s p = 0
    · simp only [anchorPoint]
      rw [if_pos hz]
    · simp only [anchorPoint, if_neg hz, hty]
      rw [if_pos hle]

/-- Witness for C3: the ellipse example evaluated at its own center has
denominator 0 and resolves to the center. -/
theorem anchorPoint_total_w :
    anchorPoint ellipseExample (shapeCenter ellipseExample) = shapeCenter ellipseExample :=
  anchorPoint_total.2 ellipseExample (shapeCenter ellipseExample) rfl
    (by norm_num [ellipseDenom, dxOf, dyOf])

lemma foldl_max_init_le (l : List ℕ) (a : ℕ) : a ≤ l.foldl max a := by
  induction l generalizing a with
  | nil => simp
  | cons x t ih =>
      rw [List.foldl_cons]
      exact le_trans (le_max_left a x) (ih (max a x))

lemma mem_le_foldl_max (l : List ℕ) : ∀ (a x : ℕ), x ∈ l → x ≤ l.foldl max a := by
  induction l with
  | nil => intro a x hx; cases hx
  | cons y t ih =>
      intro a x hx
      rw [List.foldl_cons]
      rcases List.mem_cons.mp hx with h | h
      · subst h
        exact le_trans (le_max_right a x) (foldl_max_init_le t (max a x))
      · exact ih (max a y) x h

/-- Counterexample to claim C7: with empty shape and connector
collections the loader derives `next_id = Math.max(1) + 1 = 2`, not the
claimed 1. -/
theorem deriveNextId_empty_cex : deriveNextId [] [] = 2 := rfl

/-- Claim C7 (amended): when a loaded document omits `next_id`, the
loader derives it as one greater than the maximum of 1 and all ids
across the shapes and connectors collections, so the derived value
strictly exceeds every id and is at least 2; in particular for empty
collections it is 2 (not 1). -/
theorem deriveNextId_spec :
    (∀ (sh : List Shape) (co : List Connector),
      ∀ i ∈ sh.map Shape.id ++ co.map Connector.id, i < deriveNextId sh co) ∧
    (∀ (sh : List Shape) (co : List Connector), 2 ≤ deriveNextId sh co) ∧
    deriveNextId [] [] = 2 := by
  refine ⟨?_, ?_, rfl⟩
  · intro sh co i hi
    have := mem_le_foldl_max (sh.map Shape.id ++ co.map Connector.id) 1 i hi
    unfold deriveNextId
    omega
  · intro sh co
    have := foldl_max_init_le (sh.map Shape.id ++ co.map Connector.id) 1
    unfold deriveNextId
    omega

/-- Witness for C7 (amended): a document holding the single example
rectangle (id 1) gets a derived next id above that id. -/
theorem deriveNextId_spec_w :
    1 ∈ [rectExample].map Shape.id ++ ([] : List Connector).map Connector.id ∧
    1 < deriveNextId [rectExample] [] :=
  ⟨by simp [rectExample], deriveNextId_spec.1 [rectExample] [] 1 (by simp [rectExample])⟩

/-- Initial editor state with the rect tool active (used to exercise
the create and allocation paths on concrete inputs). -/
def st0 : EState :=
  { tool := Tool.rect, symbol := "pipe", nextId := 1, shapes := [],
    connectors := [], selection := [], drag := none }

/-- Counterexample to claim C9: a pointer-down with the rect tool
creates a shape of kind Rect that nevertheless carries the `symbolKind`
field (the current symbol-kind selection), so `symbolKind` is not
present only on Symbol shapes. -/
theorem createdShape_symbol_cex :
    (onDownCreate st0 ⟨0, 0⟩ "pipe" "#ffffff" "#000000" 2).shapes.map Shape.type =
        [ShapeType.rect] ∧
    (onDownCreate st0 ⟨0, 0⟩ "pipe" "#ffffff" "#000000" 2).shapes.map Shape.symbol =
        [some "pipe"] := by
  constructor <;> simp [onDownCreate, st0, mkShape, newId]

/-- Claim C9 (amended): every shape created by the interaction state
machine carries the `symbolKind` field, set to the current symbol-kind
selection, regardless of the kind of the shape; the present-iff-Symbol
invariant is not what the code enforces. -/
theorem createdShape_symbol_always :
    ∀ (st : EState) (p : Pt) (sel fill stroke : String) (width : ℕ),
      (st.tool = Tool.rect ∨ st.tool = Tool.ellipse ∨ st.tool = Tool.symbol) →
      ∀ s ∈ (onDownCreate st p sel fill stroke width).shapes, s ∉ st.shapes →
        s.symbol = some sel := by
  intro st p sel fill stroke width hty s hs hnot
  simp only [onDownCreate, if_pos hty, List.mem_append, List.mem_singleton] at hs
  rcases hs with h | h
  · exact absurd h hnot
  · subst h
    rfl

/-- Witness for C9 (amended): the concrete rect-tool creation carries
the selected symbol kind. -/
theorem createdShape_symbol_always_w :
    (mkShape st0.tool "pipe" (newId st0.nextId).1 ⟨0, 0⟩ "#ffffff" "#000000" 2).symbol =
      some "pipe" := by
  apply createdShape_symbol_always st0 ⟨0, 0⟩ "pipe" "#ffffff" "#000000" 2 (Or.inl rfl)
  · simp [onDownCreate, st0]
  · simp [st0]

lemma aligned_snap (v : ℝ) : Aligned (snap v) :=
  ⟨jsRound (v / gridSize), by rw [snap]; ring⟩

lemma aligned_add {a b : ℝ} (ha : Aligned a) (hb : Aligned b) : Aligned (a + b) := by
  obtain ⟨j, hj⟩ := ha
  obtain ⟨k, hk⟩ := hb
  exact ⟨j + k, by rw [hj, hk]; push_cast; ring⟩

lemma aligned_sub {a b : ℝ} (ha : Aligned a) (hb : Aligned b) : Aligned (a - b) := by
  obtain ⟨j, hj⟩ := ha
  obtain ⟨k, hk⟩ := hb
  exact ⟨j - k, by rw [hj, hk]; push_cast; ring⟩

lemma aligned_min {a b : ℝ} (ha : Aligned a) (hb : Aligned b) : Aligned (min a b) := by
  rcases le_total a b with h | h
  · rw [min_eq_left h]; exact ha
  · rw [min_eq_right h]; exact hb

lemma aligned_abs {a : ℝ} (ha : Aligned a) : Aligned |a| := by
  obtain ⟨j, hj⟩ := ha
  rcases abs_choice a with h | h
  · rw [h]; exact ⟨j, hj⟩
  · rw [h, hj]
    exact ⟨-j, by push_cast; ring⟩

lemma aligned_max_one {a : ℝ} (ha : Aligned a) :
    max 1 a = 1 ∨ Aligned (max 1 a) := by
  rcases le_total a 1 with h | h
  · exact Or.inl (max_eq_left h)
  · rw [max_eq_right h]
    exact Or.inr ha

lemma aligned_edge_pair (ox ow x1 : ℝ) (bw be : Bool)
    (hx : Aligned ox) (hw : Aligned ow) (h1 : Aligned x1) :
    Aligned (if be then (min ox x1, |x1 - ox|)
      else if bw then (min x1 (ox + ow), |ox + ow - x1|)
      else (ox, ow)).1 ∧
    Aligned (if be then (min ox x1, |x1 - ox|)
      else if bw then (min x1 (ox + ow), |ox + ow - x1|)
      else (ox, ow)).2 := by
  rcases be with _ | _ <;> rcases bw with _ | _ <;> simp only [Bool.false_eq_true,
    if_true, if_false, ite_true, ite_false]
  · exact ⟨hx, hw⟩
  · exact ⟨aligned_min h1 (aligned_add hx hw),
      aligned_abs (aligned_sub (aligned_add hx hw) h1)⟩
  · exact ⟨aligned_min hx h1, aligned_abs (aligned_sub h1 hx)⟩
  · exact ⟨aligned_min hx h1, aligned_abs (aligned_sub h1 hx)⟩

/-- Editor state holding a freshly created shape with a live create
drag whose pointer-down landed off-grid at (27,27). -/
def st4 : EState :=
  { tool := Tool.rect, symbol := "pipe", nextId := 2,
    shapes := [{ id := 1, type := ShapeType.rect, symbol := some "pipe",
                 x := 20, y := 20, w := 1, h := 1, fill := "#ffffff",
                 outline := "#000000", width := 2, text := "" }],
    connectors := [], selection := [Tag.shape 1],
    drag := some (Drag.create 1 ⟨27, 27⟩) }

lemma snap_onehundred : snap 100 = 100 := by
  unfold snap jsRound gridSize
  have h1 : (100 : ℝ) / 20 + 1/2 = 11/2 := by norm_num
  rw [h1]
  have h2 : ⌊(11/2 : ℝ)⌋ = 5 := by
    rw [Int.floor_eq_iff]
    constructor <;> norm_num
  rw [h2]
  norm_num

/-- Counterexample to claim C4: a create gesture whose pointer-down
landed at x = 27 (off-grid inside a cell), after a pointer-move to
(100,100), leaves the shape at x = 27, which is not a multiple of the
grid unit 20. -/
theorem create_unaligned_cex :
    (onMove st4 ⟨100, 100⟩).shapes.map Shape.x = [27] ∧ ¬ Aligned 27 := by
  constructor
  · have hmin : min (27 : ℝ) (snap 100) = 27 := by
      rw [snap_onehundred]
      norm_num
    simp [onMove, st4, updateFirst, createGeom, hmin]
  · rintro ⟨k, hk⟩
    rw [gridSize] at hk
    have hz : (27 : ℤ) = 20 * k := by exact_mod_cast hk
    omega

/-- Claim C4 (amended): a move step leaves every moved shape with
grid-aligned x and y and unchanged w and h; a create or resize step
yields grid-aligned x and y and a w and h each either grid-aligned or
exactly 1 (the minimum-size clamp), provided the original anchor of
the gesture (the raw pointer-down point for create, the captured
original geometry for resize) is itself grid-aligned; a create whose
pointer-down landed off-grid can leave unaligned geometry. -/
theorem grid_alignment_amended :
    (∀ (dx dy : ℝ) (s : Shape),
      Aligned (moveGeom dx dy s).x ∧ Aligned (moveGeom dx dy s).y ∧
      (moveGeom dx dy s).w = s.w ∧ (moveGeom dx dy s).h = s.h) ∧
    (∀ (start cur : Pt) (s : Shape), Aligned start.x → Aligned start.y →
      Aligned (createGeom start cur s).x ∧ Aligned (createGeom start cur s).y ∧
      ((createGeom start cur s).w = 1 ∨ Aligned (createGeom start cur s).w) ∧
      ((createGeom start cur s).h = 1 ∨ Aligned (createGeom start cur s).h)) ∧
    (∀ (orig : Bounds) (pos : HandlePos) (cur : Pt) (s : Shape),
      Aligned orig.x → Aligned orig.y → Aligned orig.w → Aligned orig.h →
      Aligned (resizeGeom orig pos cur s).x ∧ Aligned (resizeGeom orig pos cur s).y ∧
      ((resizeGeom orig pos cur s).w = 1 ∨ Aligned (resizeGeom orig pos cur s).w) ∧
      ((resizeGeom orig pos cur s).h = 1 ∨ Aligned (resizeGeom orig pos cur s).h)) := by
  refine ⟨?_, ?_, ?_⟩
  · intro dx dy s
    exact ⟨aligned_snap _, aligned_snap _, rfl, rfl⟩
  · intro start cur s hx hy
    refine ⟨?_, ?_, ?_, ?_⟩
    · exact aligned_min hx (aligned_snap _)
    · exact aligned_min hy (aligned_snap _)
    · exact aligned_max_one (aligned_abs (aligned_sub (aligned_snap _) hx))
    · exact aligned_max_one (aligned_abs (aligned_sub (aligned_snap _) hy))
  · intro orig pos cur s hx hy hw hh
    have hxw := aligned_edge_pair orig.x orig.w (snap cur.x) pos.w pos.e hx hw
      (aligned_snap _)
    have hyh := aligned_edge_pair orig.y orig.h (snap cur.y) pos.n pos.s hy hh
      (aligned_snap _)
    refine ⟨?_, ?_, ?_, ?_⟩
    · simpa [resizeGeom] using hxw.1
    · simpa [resizeGeom] using hyh.1
    · simpa [resizeGeom] using aligned_max_one hxw.2
    · simpa [resizeGeom] using aligned_max_one hyh.2

/-- Witness for C4 (amended): a create step from the aligned down point
(20,40) with the pointer at (97,43) yields aligned x and a height and
width each aligned or clamped to 1. -/
theorem grid_alignment_amended_w :
    Aligned (createGeom ⟨20, 40⟩ ⟨97, 43⟩ rectExample).x ∧
    ((createGeom ⟨20, 40⟩ ⟨97, 43⟩ rectExample).w = 1 ∨
      Aligned (createGeom ⟨20, 40⟩ ⟨97, 43⟩ rectExample).w) := by
  have h := grid_alignment_amended.2.1 ⟨20, 40⟩ ⟨97, 43⟩ rectExample
    ⟨1, by rw [gridSize]; norm_num⟩ ⟨2, by rw [gridSize]; norm_num⟩
  exact ⟨h.1, h.2.2.1⟩

/-- Claim C6: a pointer-up ending a connect gesture appends a new
connector (source to target, with the current default stroke and
width) exactly when the release tag is a shape distinct from the
source; otherwise the connectors are unchanged; the drag descriptor is
cleared on every path; and no connector created by the gesture has
equal source and target. -/
theorem connect_commit :
    ∀ (st : EState) (cur : Pt) (tag : Option Tag) (addKey : Bool)
      (stroke : String) (width : ℕ) (src : ℕ),
      st.drag = some (Drag.connect src) →
      (onUp st cur tag addKey stroke width).drag = none ∧
      (∀ dst : ℕ, tag = some (Tag.shape dst) → dst ≠ src →
        (onUp st cur tag addKey stroke width).connectors =
          st.connectors ++
            [{ id := st.nextId, src := src, dst := dst, arrow := "last",
               stroke := stroke, width := width }]) ∧
      (¬ (∃ dst : ℕ, tag = some (Tag.shape dst) ∧ dst ≠ src) →
        (onUp st cur tag addKey stroke width).connectors = st.connectors) ∧
      (∀ c ∈ (onUp st cur tag addKey stroke width).connectors,
        c ∉ st.connectors → c.src ≠ c.dst) := by
  intro st cur tag addKey stroke width src h
  rcases tag with _ | t
  · refine ⟨by simp [onUp, h], ?_, ?_, ?_⟩
    · intro dst hdst
      cases hdst
    · intro _
      simp [onUp, h]
    · intro c hc hnc
      simp only [onUp, h] at hc
      exact absurd hc hnc
  · rcases t with dst0 | i
    · by_cases hd : dst0 = src
      · subst hd
        refine ⟨by simp [onUp, h], ?_, ?_, ?_⟩
        · intro dst hdst hne
          rw [Option.some.injEq, Tag.shape.injEq] at hdst
          exact absurd hdst.symm hne
        · intro _
          simp [onUp, h]
        · intro c hc hnc
          simp only [onUp, h, ne_eq, not_true_eq_false, if_neg, ite_false,
            not_false_eq_true] at hc
          exact absurd hc hnc
      · have hd' : dst0 ≠ src := hd
        refine ⟨by simp [onUp, h], ?_, ?_, ?_⟩
        · intro dst hdst hne
          rw [Option.some.injEq, Tag.shape.injEq] at hdst
          subst hdst
          simp [onUp, h, hd', newId]
        · intro hno
          exact absurd ⟨dst0, rfl, hd'⟩ hno
        · intro c hc hnc
          simp only [onUp, h, hd', ne_eq, not_false_eq_true, if_true, ite_true,
            newId, List.mem_append, List.mem_singleton] at hc
          rcases hc with hc | hc
          · exact absurd hc hnc
          · subst hc
            exact fun hh => hd' (by simpa using hh.symm)
    · refine ⟨by simp [onUp, h], ?_, ?_, ?_⟩
      · intro dst hdst
        cases hdst
      · intro _
        simp [onUp, h]
      · intro c hc hnc
        simp only [onUp, h] at hc
        exact absurd hc hnc

/-- Editor state with a live connect drag from shape id 1. -/
def st6 : EState :=
  { tool := Tool.connector, symbol := "pipe", nextId := 3, shapes := [],
    connectors := [], selection := [], drag := some (Drag.connect 1) }

/-- Witness for C6: releasing over shape 2 while dragging a connector
from shape 1 clears the drag and appends the 1-to-2 connector with the
default stroke and width. -/
theorem connect_commit_w :
    (onUp st6 ⟨0, 0⟩ (some (Tag.shape 2)) false "#000000" 2).drag = none ∧
    (onUp st6 ⟨0, 0⟩ (some (Tag.shape 2)) false "#000000" 2).connectors =
      [{ id := 3, src := 1, dst := 2, arrow := "last", stroke := "#000000",
         width := 2 }] := by
  have h := connect_commit st6 ⟨0, 0⟩ (some (Tag.shape 2)) false "#000000" 2 1 rfl
  refine ⟨h.1, ?_⟩
  have h2 := h.2.1 2 rfl (by norm_num)
  rw [h2]
  simp [st6]

/-- Claim C10: `newId` returns the current counter and increments it;
under the id invariant (all ids below the counter, no duplicates across
shapes and connectors), both id-allocating steps — shape creation on
pointer-down and connector commit on pointer-up — preserve the
invariant, and the id of every newly allocated record strictly exceeds
every previously existing id. -/
theorem id_allocation :
    (∀ n : ℕ, newId n = (n, n + 1)) ∧
    (∀ (st : EState) (p : Pt) (sel fill stroke : String) (width : ℕ),
      (st.tool = Tool.rect ∨ st.tool = Tool.ellipse ∨ st.tool = Tool.symbol) →
      IdsOk st →
      IdsOk (onDownCreate st p sel fill stroke width) ∧
      ∀ s ∈ (onDownCreate st p sel fill stroke width).shapes, s ∉ st.shapes →
        ∀ i ∈ allIds st, i < s.id) ∧
    (∀ (st : EState) (cur : Pt) (tag : Option Tag) (addKey : Bool)
      (stroke : String) (width : ℕ) (src : ℕ),
      st.drag = some (Drag.connect src) → IdsOk st →
      IdsOk (onUp st cur tag addKey stroke width) ∧
      ∀ c ∈ (onUp st cur tag addKey stroke width).connectors, c ∉ st.connectors →
        ∀ i ∈ allIds st, i < c.id) := by
  refine ⟨fun n => rfl, ?_, ?_⟩
  · intro st p sel fill stroke width hty hok
    have hall : allIds (onDownCreate st p sel fill stroke width) =
        st.shapes.map Shape.id ++ st.nextId :: st.connectors.map Connector.id := by
      simp [onDownCreate, if_pos hty, allIds, mkShape, newId]
    have hnext : (onDownCreate st p sel fill stroke width).nextId = st.nextId + 1 := by
      simp [onDownCreate, if_pos hty, newId]
    constructor
    · constructor
      · intro i hi
        rw [hall] at hi
        rw [hnext]
        simp only [List.mem_append, List.mem_cons] at hi
        rcases hi with hi | hi | hi
        · exact Nat.lt_succ_of_lt (hok.1 i (List.mem_append.mpr (Or.inl hi)))
        · omega
        · exact Nat.lt_succ_of_lt (hok.1 i (List.mem_append.mpr (Or.inr hi)))
      · rw [hall, List.nodup_middle, List.nodup_cons]
        refine ⟨?_, hok.2⟩
        intro hmem
        exact absurd (hok.1 st.nextId hmem) (lt_irrefl st.nextId)
    · intro s hs hnot i hi
      simp only [onDownCreate, if_pos hty, List.mem_append, List.mem_singleton] at hs
      rcases hs with hsold | hsnew
      · exact absurd hsold hnot
      · subst hsnew
        exact hok.1 i hi
  · intro st cur tag addKey stroke width src h hok
    rcases tag with _ | t
    · refine ⟨?_, ?_⟩
      · have : allIds (onUp st cur (none : Option Tag) addKey stroke width) = allIds st ∧
            (onUp st cur (none : Option Tag) addKey stroke width).nextId = st.nextId := by
          constructor <;> simp [onUp, h, allIds]
        exact ⟨by rw [this.1, this.2]; exact hok.1, by rw [this.1]; exact hok.2⟩
      · intro c hc hnc
        simp only [onUp, h] at hc
        exact absurd hc hnc
    · rcases t with dst0 | i
      · by_cases hd : dst0 = src
        · subst hd
          refine ⟨?_, ?_⟩
          · have : allIds (onUp st cur (some (Tag.shape dst0)) addKey stroke width) =
                allIds st ∧
                (onUp st cur (some (Tag.shape dst0)) addKey stroke width).nextId =
                  st.nextId := by
              constructor <;> simp [onUp, h, allIds]
            exact ⟨by rw [this.1, this.2]; exact hok.1, by rw [this.1]; exact hok.2⟩
          · intro c hc hnc
            simp only [onUp, h, ne_eq, not_true_eq_false, if_neg, ite_false,
              not_false_eq_true] at hc
            exact absurd hc hnc
        · have hd' : dst0 ≠ src := hd
          have hall : allIds (onUp st cur (some (Tag.shape dst0)) addKey stroke width) =
              (st.shapes.map Shape.id ++ st.connectors.map Connector.id) ++
                [st.nextId] := by
            simp [onUp, h, hd', allIds, newId]
          have hnext : (onUp st cur (some (Tag.shape dst0)) addKey stroke width).nextId =
              st.nextId + 1 := by
            simp [onUp, h, hd', newId]
          refine ⟨⟨?_, ?_⟩, ?_⟩
          · intro i hi
            rw [hall] at hi
            rw [hnext]
            simp only [List.mem_append, List.mem_singleton] at hi
            rcases hi with hi | hi
            · exact Nat.lt_succ_of_lt (hok.1 i (by simpa [allIds] using hi))
            · omega
          · rw [hall]
            have : (st.shapes.map Shape.id ++ st.connectors.map Connector.id) ++
                [st.nextId] =
                (st.shapes.map Shape.id ++ st.connectors.map Connector.id) ++
                  st.nextId :: [] := rfl
            rw [this, List.nodup_middle, List.nodup_cons]
            refine ⟨?_, by simpa using hok.2⟩
            simp only [List.append_nil]
            intro hmem
            exact absurd (hok.1 st.nextId hmem) (lt_irrefl st.nextId)
          · intro c hc hnc
            simp only [onUp, h, hd', ne_eq, not_false_eq_true, if_true, ite_true,
              newId, List.mem_append, List.mem_singleton] at hc
            rcases hc with hc | hc
            · exact absurd hc hnc
            · subst hc
              intro i hi
              exact hok.1 i hi
      · refine ⟨?_, ?_⟩
        · have : allIds (onUp st cur (some (Tag.conn i)) addKey stroke width) =
              allIds st ∧
              (onUp st cur (some (Tag.conn i)) addKey stroke width).nextId =
                st.nextId := by
            constructor <;> simp [onUp, h, allIds]
          exact ⟨by rw [this.1, this.2]; exact hok.1, by rw [this.1]; exact hok.2⟩
        · intro c hc hnc
          simp only [onUp, h] at hc
          exact absurd hc hnc

/-- Witness for C10: from the empty initial state the create step
preserves the id invariant. -/
theorem id_allocation_w :
    IdsOk (onDownCreate st0 ⟨0, 0⟩ "pipe" "#ffffff" "#000000" 2) := by
  have h0 : IdsOk st0 := by
    constructor
    · intro i hi
      simp [allIds, st0] at hi
    · simp [allIds, st0]
  exact (id_allocation.2.1 st0 ⟨0, 0⟩ "pipe" "#ffffff" "#000000" 2 (Or.inl rfl) h0).1

lemma mem_shape_fold (L R T B : ℝ) (l : List Shape) (init : List Tag) (x : Tag) :
    x ∈ l.foldl
        (fun sel s => if shapeMarqueeTest L R T B s then sel.insert (Tag.shape s.id) else sel)
        init ↔
      x ∈ init ∨ ∃ s ∈ l, shapeMarqueeTest L R T B s ∧ Tag.shape s.id = x := by
  induction l generalizing init with
  | nil => simp
  | cons a t ih =>
      rw [List.foldl_cons]
      by_cases h : shapeMarqueeTest L R T B a
      · rw [if_pos h, ih]
        simp only [List.mem_insert_iff, List.mem_cons]
        constructor
        · rintro ((rfl | hx) | ⟨b, hb, ht, rfl⟩)
          · exact Or.inr ⟨a, Or.inl rfl, h, rfl⟩
          · exact Or.inl hx
          · exact Or.inr ⟨b, Or.inr hb, ht, rfl⟩
        · rintro (hx | ⟨b, hb | hb, ht, rfl⟩)
          · exact Or.inl (Or.inr hx)
          · subst hb
            exact Or.inl (Or.inl rfl)
          · exact Or.inr ⟨b, hb, ht, rfl⟩
      · rw [if_neg h, ih]
        simp only [List.mem_cons]
        constructor
        · rintro (hx | ⟨b, hb, ht, rfl⟩)
          · exact Or.inl hx
          · exact Or.inr ⟨b, Or.inr hb, ht, rfl⟩
        · rintro (hx | ⟨b, hb | hb, ht, rfl⟩)
          · exact Or.inl hx
          · subst hb
            exact absurd ht h
          · exact Or.inr ⟨b, hb, ht, rfl⟩

lemma mem_conn_fold (shapes : List Shape) (L R T B : ℝ) (l : List Connector)
    (init : List Tag) (x : Tag) :
    x ∈ l.foldl
        (fun sel c =>
          if connMarqueeTest shapes L R T B c then sel.insert (Tag.conn c.id) else sel)
        init ↔
      x ∈ init ∨ ∃ c ∈ l, connMarqueeTest shapes L R T B c ∧ Tag.conn c.id = x := by
  induction l generalizing init with
  | nil => simp
  | cons a t ih =>
      rw [List.foldl_cons]
      by_cases h : connMarqueeTest shapes L R T B a
      · rw [if_pos h, ih]
        simp only [List.mem_insert_iff, List.mem_cons]
        constructor
        · rintro ((rfl | hx) | ⟨b, hb, ht, rfl⟩)
          · exact Or.inr ⟨a, Or.inl rfl, h, rfl⟩
          · exact Or.inl hx
          · exact Or.inr ⟨b, Or.inr hb, ht, rfl⟩
        · rintro (hx | ⟨b, hb | hb, ht, rfl⟩)
          · exact Or.inl (Or.inr hx)
          · subst hb
            exact Or.inl (Or.inl rfl)
          · exact Or.inr ⟨b, hb, ht, rfl⟩
      · rw [if_neg h, ih]
        simp only [List.mem_cons]
        constructor
        · rintro (hx | ⟨b, hb, ht, rfl⟩)
          · exact Or.inl hx
          · exact Or.inr ⟨b, Or.inr hb, ht, rfl⟩
        · rintro (hx | ⟨b, hb | hb, ht, rfl⟩)
          · exact Or.inl hx
          · subst hb
            exact absurd ht h
          · exact Or.inr ⟨b, hb, ht, rfl⟩

lemma connMarqueeTest_iff (shapes : List Shape) (L R T B : ℝ) (c : Connector) :
    connMarqueeTest shapes L R T B c ↔
      ∃ s1 s2, shapes.find? (fun s => s.id == c.src) = some s1 ∧
        shapes.find? (fun s => s.id == c.dst) = some s2 ∧
        pointInRect L R T B (anchorPoint s1 (shapeCenter s2)) ∧
        pointInRect L R T B (anchorPoint s2 (shapeCenter s1)) := by
  unfold connMarqueeTest
  rcases h1 : shapes.find? (fun s => s.id == c.src) with _ | s1 <;>
    rcases h2 : shapes.find? (fun s => s.id == c.dst) with _ | s2
  · simp [h1, h2]
  · simp [h1, h2]
  · simp [h1, h2]
  · simp only [h1, h2, Option.some.injEq, pointInRect]
    constructor
    · rintro ⟨ha, hb, hc', hd⟩
      refine ⟨s1, s2, rfl, rfl, ?_, ?_⟩
      · exact ⟨(le_min_iff.mp ha).1, (max_le_iff.mp hb).1,
          (le_min_iff.mp hc').1, (max_le_iff.mp hd).1⟩
      · exact ⟨(le_min_iff.mp ha).2, (max_le_iff.mp hb).2,
          (le_min_iff.mp hc').2, (max_le_iff.mp hd).2⟩
    · rintro ⟨s1', s2', hs1, hs2, ⟨ha1, hb1, hc1, hd1⟩, ⟨ha2, hb2, hc2, hd2⟩⟩
      subst hs1
      subst hs2
      exact ⟨le_min_iff.mpr ⟨ha1, ha2⟩, max_le_iff.mpr ⟨hb1, hb2⟩,
        le_min_iff.mpr ⟨hc1, hc2⟩, max_le_iff.mpr ⟨hd1, hd2⟩⟩

/-- Claim C5: on marquee commit a shape tag is in the resulting
selection iff some shape with that id has its full bounding rectangle
inside the marquee rectangle, boundary inclusive (or it was already
selected and the commit is additive); a connector tag is in the
selection iff some connector with that id resolves both shapes and has
both rendered endpoint anchor points inside the marquee rectangle (or
additive carry-over); and the endpoint-bounding-box test of the code is
exactly the both-endpoints-inside test. -/
theorem marquee_selection :
    ∀ (st : EState) (x0 y0 x1 y1 : ℝ) (add : Bool) (L R T B : ℝ),
      L = min x0 x1 → R = max x0 x1 → T = min y0 y1 → B = max y0 y1 →
      (∀ i : ℕ,
        Tag.shape i ∈ (applyMarquee st x0 y0 x1 y1 add).selection ↔
          (∃ s ∈ st.shapes, s.id = i ∧
            L ≤ s.x ∧ s.x + s.w ≤ R ∧ T ≤ s.y ∧ s.y + s.h ≤ B) ∨
          (add = true ∧ Tag.shape i ∈ st.selection)) ∧
      (∀ i : ℕ,
        Tag.conn i ∈ (applyMarquee st x0 y0 x1 y1 add).selection ↔
          (∃ c ∈ st.connectors, c.id = i ∧ ∃ s1 s2,
            st.shapes.find? (fun s => s.id == c.src) = some s1 ∧
            st.shapes.find? (fun s => s.id == c.dst) = some s2 ∧
            pointInRect L R T B (anchorPoint s1 (shapeCenter s2)) ∧
            pointInRect L R T B (anchorPoint s2 (shapeCenter s1))) ∨
          (add = true ∧ Tag.conn i ∈ st.selection)) := by
  intro st x0 y0 x1 y1 add L R T B hL hR hT hB
  subst hL hR hT hB
  have hsel : (applyMarquee st x0 y0 x1 y1 add).selection =
      st.connectors.foldl
        (fun sel c =>
          if connMarqueeTest st.shapes (min x0 x1) (max x0 x1) (min y0 y1) (max y0 y1) c
          then sel.insert (Tag.conn c.id) else sel)
        (st.shapes.foldl
          (fun sel s =>
            if shapeMarqueeTest (min x0 x1) (max x0 x1) (min y0 y1) (max y0 y1) s
            then sel.insert (Tag.shape s.id) else sel)
          (if add then st.selection else [])) := rfl
  constructor
  · intro i
    rw [hsel, mem_conn_fold, mem_shape_fold]
    have hnoc : ¬ ∃ c ∈ st.connectors,
        connMarqueeTest st.shapes (min x0 x1) (max x0 x1) (min y0 y1) (max y0 y1) c ∧
          Tag.conn c.id = Tag.shape i := by
      rintro ⟨c, _, _, hcs⟩
      cases hcs
    constructor
    · rintro ((hbase | ⟨s, hs, ht, hts⟩) | habs)
      · rcases hadd : add with _ | _
        · rw [hadd] at hbase
          simp at hbase
        · rw [hadd] at hbase
          simp only [if_true, ite_true] at hbase
          exact Or.inr ⟨rfl, hbase⟩
      · rw [Tag.shape.injEq] at hts
        exact Or.inl ⟨s, hs, hts, ht.1, ht.2.1, ht.2.2.1, ht.2.2.2⟩
      · exact absurd habs hnoc
    · rintro (⟨s, hs, hid, h1, h2, h3, h4⟩ | ⟨hadd, hmem⟩)
      · exact Or.inl (Or.inr ⟨s, hs, ⟨h1, h2, h3, h4⟩, by rw [hid]⟩)
      · subst hadd
        exact Or.inl (Or.inl (by simpa using hmem))
  · intro i
    rw [hsel, mem_conn_fold, mem_shape_fold]
    have hnos : ¬ ∃ s ∈ st.shapes,
        shapeMarqueeTest (min x0 x1) (max x0 x1) (min y0 y1) (max y0 y1) s ∧
          Tag.shape s.id = Tag.conn i := by
      rintro ⟨s, _, _, hcs⟩
      cases hcs
    constructor
    · rintro ((hbase | habs) | ⟨c, hc, ht, hts⟩)
      · rcases hadd : add with _ | _
        · rw [hadd] at hbase
          simp at hbase
        · rw [hadd] at hbase
          simp only [if_true, ite_true] at hbase
          exact Or.inr ⟨rfl, hbase⟩
      · exact absurd habs hnos
      · rw [Tag.conn.injEq] at hts
        obtain ⟨s1, s2, hf1, hf2, hp1, hp2⟩ := (connMarqueeTest_iff _ _ _ _ _ _).mp ht
        exact Or.inl ⟨c, hc, hts, s1, s2, hf1, hf2, hp1, hp2⟩
    · rintro (⟨c, hc, hid, s1, s2, hf1, hf2, hp1, hp2⟩ | ⟨hadd, hmem⟩)
      · refine Or.inr ⟨c, hc, ?_, by rw [hid]⟩
        exact (connMarqueeTest_iff _ _ _ _ _ _).mpr ⟨s1, s2, hf1, hf2, hp1, hp2⟩
      · subst hadd
        exact Or.inl (Or.inl (by simpa using hmem))

/-- Rectangle shape with id 1 at (40,40), 40 by 40 (used by the
marquee witness). -/
def shA : Shape :=
  { id := 1, type := ShapeType.rect, symbol := some "pipe", x := 40, y := 40,
    w := 40, h := 40, fill := "#ffffff", outline := "#000000", width := 2,
    text := "" }

/-- Editor state holding the single shape `shA` (used by the marquee
witness). -/
def stM : EState :=
  { tool := Tool.select, symbol := "pipe", nextId := 2, shapes := [shA],
    connectors := [], selection := [], drag := some (Drag.marquee ⟨0, 0⟩) }

/-- Witness for C5: a marquee from (0,0) to (300,300) selects the shape
at (40,40) of size 40, whose bounding rectangle lies fully inside. -/
theorem marquee_selection_w :
    Tag.shape 1 ∈ (applyMarquee stM 0 0 300 300 false).selection := by
  refine ((marquee_selection stM 0 0 300 300 false (min 0 300) (max 0 300)
    (min 0 300) (max 0 300) rfl rfl rfl rfl).1 1).mpr ?_
  left
  refine ⟨shA, by simp [stM], rfl, ?_, ?_, ?_, ?_⟩ <;> norm_num [shA]

end DrawEngine
